import Mathlib

/-!
Verification development for the provider-notification edge function
(`src/index.ts`).  The numeric computations of the source run on JS
numbers; they are modelled here with exact rational arithmetic (`ℚ`),
and JS strings are modelled as their character lists (`List Char`).
Fallible network collaborators (the document store, the push gateway)
are modelled as explicit inputs to the otherwise pure request handler.
-/

namespace Padue

/-! ## Exact rational arithmetic

JS `+` and `/ 2` on numbers are modelled by exact rational operations.
They are spelled through `mkRat` (rather than `Rat.add` / `Rat.div`)
solely so that concrete proof obligations evaluate inside the kernel;
`qadd_eq` and `qhalf_eq` show they are ordinary rational `+` and `/ 2`. -/

def qadd (a b : ℚ) : ℚ :=
  mkRat (a.num * (b.den : Int) + b.num * (a.den : Int)) (a.den * b.den)

def qhalf (a : ℚ) : ℚ := mkRat a.num (2 * a.den)

lemma qadd_eq (a b : ℚ) : qadd a b = a + b := by
  have ha : (a.den : ℚ) ≠ 0 := by exact_mod_cast a.den_nz
  have hb : (b.den : ℚ) ≠ 0 := by exact_mod_cast b.den_nz
  unfold qadd
  rw [Rat.mkRat_eq_div]
  push_cast
  conv_rhs => rw [← Rat.num_div_den a, ← Rat.num_div_den b]
  rw [div_add_div _ _ ha hb]
  ring_nf

lemma qadd_zero (a : ℚ) : qadd a 0 = a := by rw [qadd_eq, add_zero]

lemma qhalf_eq (a : ℚ) : qhalf a = a / 2 := by
  have ha : (a.den : ℚ) ≠ 0 := by exact_mod_cast a.den_nz
  unfold qhalf
  rw [Rat.mkRat_eq_div]
  push_cast
  rw [mul_comm, ← div_div, Rat.num_div_den]

/-! ## Geohash codec (`encodeGeohash` / `approximateCenter` in `src/index.ts`)

Both functions walk the same longitude/latitude interval-bisection,
one bit at a time, starting with longitude.  `GeoState` is the shared
loop state: the source's `evenBit` (encode) and `isLon` (decode) play
the same role and are modelled by the single field `isLon`. -/

structure GeoState where
  isLon  : Bool
  latMin : ℚ
  latMax : ℚ
  lonMin : ℚ
  lonMax : ℚ
deriving DecidableEq

/-- Initial state of both loops: `latInterval = [-90, 90]`,
`lonInterval = [-180, 180]`, longitude bit first. -/
def initState : GeoState :=
  { isLon := true, latMin := -90, latMax := 90, lonMin := -180, lonMax := 180 }

/-- One interval-halving step given the bit value.  Encoding performs this
update after choosing the bit by comparison; decoding performs the
identical update with the bit read back from the key
(`if (bit) lonMin = mid; else lonMax = mid;` and the latitude twin). -/
def refineBit (s : GeoState) (b : Bool) : GeoState :=
  if s.isLon then
    if b then { s with isLon := false, lonMin := qhalf (qadd s.lonMin s.lonMax) }
    else { s with isLon := false, lonMax := qhalf (qadd s.lonMin s.lonMax) }
  else
    if b then { s with isLon := true, latMin := qhalf (qadd s.latMin s.latMax) }
    else { s with isLon := true, latMax := qhalf (qadd s.latMin s.latMax) }

def refineBits (s : GeoState) (bs : List Bool) : GeoState :=
  bs.foldl refineBit s

/-- The bit `encodeGeohash` emits in state `s` for the point `(lat, lon)`:
the source tests `lon > mid` (resp. `lat > mid`). -/
def encBit (lat lon : ℚ) (s : GeoState) : Bool :=
  if s.isLon then decide (qhalf (qadd s.lonMin s.lonMax) < lon)
  else decide (qhalf (qadd s.latMin s.latMax) < lat)

/-- The stream of bits `encodeGeohash` produces: each loop iteration emits
`encBit` in the current state and refines the state with it. -/
def encBits (lat lon : ℚ) (s : GeoState) : Nat → List Bool
  | 0 => []
  | n + 1 =>
    let b := encBit lat lon s
    b :: encBits lat lon (refineBit s b) n

/-- The base-32 geohash alphabet of the source. -/
def BASE32 : List Char := "0123456789bcdefghjkmnpqrstuvwxyz".toList

def bit1 (b : Bool) : Nat := cond b 1 0

/-- Grouping of the encoder's bit stream into base-32 symbols: the source
accumulates `ch |= 1 << (4 - bit)` over five bits and appends
`BASE32[ch]`; the loop stops exactly when `precision` symbols have been
emitted, i.e. after `5 * precision` bits. -/
def bitsToChars : List Bool → List Char
  | b0 :: b1 :: b2 :: b3 :: b4 :: rest =>
    BASE32.getD (16 * bit1 b0 + 8 * bit1 b1 + 4 * bit1 b2 + 2 * bit1 b3 + bit1 b4) ' '
      :: bitsToChars rest
  | _ => []

/-- `encodeGeohash(lat, lon, precision)` of the source (the returned JS
string modelled as its character list). -/
def encodeGeohash (lat lon : ℚ) (precision : Nat) : List Char :=
  bitsToChars (encBits lat lon initState (5 * precision))

/-- `BASE32.indexOf(c)` of the source: index of `c`, `-1` when absent. -/
def base32Index (c : Char) : Int :=
  if c ∈ BASE32 then ((BASE32.indexOf c : Nat) : Int) else -1

/-- JS `(val >> i) & 1` truthiness under 32-bit two's-complement
semantics (`val = -1` yields every bit set). -/
def jsBit (val : Int) (i : Nat) : Bool :=
  ((val.emod (2 ^ 32)).toNat >>> i) &&& 1 == 1

/-- The five bits `approximateCenter` reads from one symbol
(`for (let i = 4; i >= 0; i--) { const bit = (val >> i) & 1; ... }`). -/
def charBits (c : Char) : List Bool :=
  let val := base32Index c
  [jsBit val 4, jsBit val 3, jsBit val 2, jsBit val 1, jsBit val 0]

/-- The interval state after `approximateCenter`'s double loop over the
key: a fold of the shared `refineBit` over the flattened bit stream. -/
def decodeState (h : List Char) : GeoState :=
  refineBits initState (h.flatMap charBits)

/-- Latitude midpoint of a state's rectangle (`(latMin + latMax) / 2`). -/
def ctrLat (s : GeoState) : ℚ := qhalf (qadd s.latMin s.latMax)

/-- Longitude midpoint of a state's rectangle (`(lonMin + lonMax) / 2`). -/
def ctrLon (s : GeoState) : ℚ := qhalf (qadd s.lonMin s.lonMax)

/-- `approximateCenter(hash)` of the source: midpoint of the decoded
bounds, as `(lat, lon)`. -/
def approximateCenter (h : List Char) : ℚ × ℚ :=
  (ctrLat (decodeState h), ctrLon (decodeState h))

/-- Membership of a point in the bounding rectangle carried by a
decoder state. -/
def rectContains (s : GeoState) (lat lon : ℚ) : Prop :=
  s.latMin ≤ lat ∧ lat ≤ s.latMax ∧ s.lonMin ≤ lon ∧ lon ≤ s.lonMax

instance (s : GeoState) (lat lon : ℚ) : Decidable (rectContains s lat lon) := by
  unfold rectContains; infer_instance

/-! ## Neighborhood expander (`getGeohashNeighbors` in `src/index.ts`) -/

/-- The fixed offset step of the source: `const step = 0.005`. -/
def neighborStep : ℚ := mkRat 5 1000

/-- The source's `offsets` array, in order: `[0,0]` then the 8 symmetric
offsets, each entry `(dLat, dLon)`. -/
def neighborOffsets : List (ℚ × ℚ) :=
  [(0, 0),
   (0, neighborStep), (neighborStep, neighborStep), (neighborStep, 0),
   (neighborStep, -neighborStep), (0, -neighborStep),
   (-neighborStep, -neighborStep), (-neighborStep, 0),
   (-neighborStep, neighborStep)]

/-- Loop body of the source's `for (const [dLat, dLon] of offsets)`:
encode the offset point at the center's precision and add the result to
the set when it is a truthy (nonempty) string.  The JS `Set` is modelled
as an insertion-ordered duplicate-free list. -/
def addNeighbor (centerLen : Nat) (c : ℚ × ℚ) (acc : List (List Char))
    (d : ℚ × ℚ) : List (List Char) :=
  let hash := encodeGeohash (qadd c.1 d.1) (qadd c.2 d.2) centerLen
  if hash.isEmpty then acc
  else if hash ∈ acc then acc
  else acc ++ [hash]

/-- `getGeohashNeighbors(center)` of the source.  The guard
`!center || center.length < 5` is the emptiness-or-short test on the
modelled string. -/
def getGeohashNeighbors (center : List Char) : List (List Char) :=
  if center.isEmpty || center.length < 5 then [center]
  else
    let c := approximateCenter center
    neighborOffsets.foldl (addNeighbor center.length c) [center]

/-! ## Firestore query construction (`queryProviders` in `src/index.ts`)

The source posts a `structuredQuery` body to the store's `runQuery`
endpoint.  `StructuredQuery` records the parts of that body this spec
talks about: the collection, the result limit, and the list of filter
predicates of the `where` clause (`whereFilters`; the literal body of
the source has no `where` member at all, which is modelled as the empty
predicate list). -/

inductive FieldOp
  | equal
  | arrayContains
  | inArray
deriving DecidableEq

structure FieldFilter where
  fieldPath : String
  op : FieldOp
  values : List String
deriving DecidableEq

structure StructuredQuery where
  collectionId : String
  limit : Nat
  whereFilters : List FieldFilter
deriving DecidableEq

/-- The query body `queryProviders(geohashes, service)` sends:
`{ structuredQuery: { from: [{ collectionId: "providers" }], limit: 5 } }`.
Neither argument appears in the body (they are only logged). -/
def structuredQueryBody (geohashes : List (List Char)) (service : String) :
    StructuredQuery :=
  { collectionId := "providers", limit := 5, whereFilters := [] }

/-- One provider document's fields, restricted to the two the handler
reads (`stringValue` of each modelled as the optional string). -/
structure ProviderFields where
  oneSignalPlayerId : Option String
  oneSignalSubscriptionId : Option String
deriving DecidableEq

/-- The store's reply: an error response (`!res.ok`), or the JSON result
rows, each optionally carrying a document (`r.document`). -/
abbrev StoreReply : Type := Except String (List (Option ProviderFields))

/-- Result-processing of `queryProviders`: an error reply is swallowed
into `[]`; otherwise rows are filtered to those with a document and
mapped to their fields.  `geohashes` and `service` are received (and
logged) but do not influence the result. -/
def queryProviders (geohashes : List (List Char)) (service : String)
    (reply : StoreReply) : List ProviderFields :=
  match reply with
  | .error _ => []
  | .ok rows => rows.filterMap id

/-! ## Push dispatch and the request handler (`sendPush` / `fetch`) -/

/-- `sendPush` of the source: returns immediately when the recipient
list is empty (the gateway is not called); otherwise the gateway outcome
is only logged.  The returned flag reports gateway success. -/
def sendPush (playerIds : List String) (gatewayOk : Bool) : Bool :=
  if playerIds.length = 0 then true else gatewayOk

/-- JS truthiness of an optional string (absent and `""` are falsy). -/
def jsTruthyStr : Option String → Bool
  | none => false
  | some s => !(s == "")

/-- JS truthiness of an optional modelled string. -/
def jsTruthyChars : Option (List Char) → Bool
  | none => false
  | some s => !s.isEmpty

/-- JS truthiness of an optional number (absent and `0` are falsy). -/
def jsTruthyNum : Option ℚ → Bool
  | none => false
  | some q => decide (q ≠ 0)

structure UserLocation where
  latitude : Option ℚ
  longitude : Option ℚ
deriving DecidableEq

/-- The request body fields the handler destructures. -/
structure Payload where
  requestId : Option String
  service : Option String
  userLocation : Option UserLocation
  locationDescription : Option String
  userName : Option String
  geohash : Option (List Char)
deriving DecidableEq

/-- `payload.userLocation?.latitude` (optional chaining). -/
def latOf (p : Payload) : Option ℚ := p.userLocation.bind UserLocation.latitude

/-- `payload.userLocation?.longitude` (optional chaining). -/
def lonOf (p : Payload) : Option ℚ := p.userLocation.bind UserLocation.longitude

/-- `p.oneSignalPlayerId?.stringValue || p.oneSignalSubscriptionId?.stringValue`:
the first operand when truthy, else the second. -/
def extractRecipient (f : ProviderFields) : Option String :=
  match f.oneSignalPlayerId with
  | some s => if s ≠ "" then some s else f.oneSignalSubscriptionId
  | none => f.oneSignalSubscriptionId

/-- JS `String.prototype.trim`, modelled structurally on the character
list: strip leading and trailing whitespace. -/
def trimChars (cs : List Char) : List Char :=
  ((cs.dropWhile Char.isWhitespace).reverse.dropWhile Char.isWhitespace).reverse

/-- `.filter((id) => id?.trim())`: keep a mapped entry when it is a
string whose trim is nonempty (a whitespace-only id is falsy). -/
def keepId : Option String → Option String
  | some s => if !(trimChars s.data).isEmpty then some s else none
  | none => none

/-- `[...new Set(xs)]`: first occurrences in order. -/
def jsSetDedup {α : Type} [DecidableEq α] (l : List α) : List α :=
  l.foldl (fun acc x => if x ∈ acc then acc else acc ++ [x]) []

/-- The handler's `uniqueIds`: recipient extraction, truthy-trim filter,
then `Set` deduplication. -/
def uniqueRecipients (providers : List ProviderFields) : List String :=
  jsSetDedup ((providers.map extractRecipient).filterMap keepId)

/-- Response bodies the handler can produce on the modelled paths. -/
inductive ResponseBody
  | missingFields
  | noProviders
  | success (notified : Nat)
deriving DecidableEq

structure HttpResponse where
  status : Nat
  body : ResponseBody
deriving DecidableEq

/-- `clientGeohash || encodeGeohash(latitude, longitude, 7)`: the
supplied geohash when truthy, else a fresh precision-7 encoding. -/
def centerHashOf (p : Payload) : List Char :=
  if jsTruthyChars p.geohash then p.geohash.getD []
  else encodeGeohash ((latOf p).getD 0) ((lonOf p).getD 0) 7

/-- The POST branch of the `fetch` handler as a function of the request
payload, the store's reply and the push gateway's outcome.  The
validation guard is the source's
`if (!service || !userLocation?.latitude || !userLocation?.longitude)`;
`sendPush`'s outcome is awaited but never read, so the success response
is produced regardless of it. -/
def handleRequest (p : Payload) (reply : StoreReply) (gatewayOk : Bool) :
    HttpResponse :=
  if !jsTruthyStr p.service || !jsTruthyNum (latOf p) || !jsTruthyNum (lonOf p) then
    { status := 400, body := .missingFields }
  else
    let centerHash := centerHashOf p
    let geohashes := getGeohashNeighbors centerHash
    let providers := queryProviders geohashes (p.service.getD "") reply
    let uniqueIds := uniqueRecipients providers
    if uniqueIds.length = 0 then
      { status := 200, body := .noProviders }
    else
      let _sent := sendPush uniqueIds gatewayOk
      { status := 200, body := .success uniqueIds.length }

/-! ## Interval-bisection lemmas -/

/-- Well-formedness: both intervals are nondegenerate. -/
def WF (s : GeoState) : Prop := s.latMin < s.latMax ∧ s.lonMin < s.lonMax

/-- `t`'s rectangle is nested inside `s`'s rectangle. -/
def Nested (t s : GeoState) : Prop :=
  s.latMin ≤ t.latMin ∧ t.latMax ≤ s.latMax ∧ s.lonMin ≤ t.lonMin ∧ t.lonMax ≤ s.lonMax

lemma initState_wf : WF initState := by
  constructor <;> norm_num [initState]

lemma nested_trans {u t s : GeoState} (h1 : Nested u t) (h2 : Nested t s) :
    Nested u s := by
  obtain ⟨a1, a2, a3, a4⟩ := h1
  obtain ⟨b1, b2, b3, b4⟩ := h2
  exact ⟨le_trans b1 a1, le_trans a2 b2, le_trans b3 a3, le_trans a4 b4⟩

lemma refineBit_wf {s : GeoState} (b : Bool) (h : WF s) : WF (refineBit s b) := by
  obtain ⟨il, p1, p2, q1, q2⟩ := s
  obtain ⟨h1, h2⟩ := h
  simp only [WF] at *
  cases il <;> cases b <;> simp [refineBit, qadd_eq, qhalf_eq] <;> constructor <;> linarith

lemma refineBit_nested {s : GeoState} (b : Bool) (h : WF s) :
    Nested (refineBit s b) s := by
  obtain ⟨il, p1, p2, q1, q2⟩ := s
  obtain ⟨h1, h2⟩ := h
  simp only [WF] at *
  cases il <;> cases b <;> simp [refineBit, Nested, qadd_eq, qhalf_eq] <;>
    (repeat' apply And.intro) <;> linarith

lemma refineBits_cons (s : GeoState) (b : Bool) (bs : List Bool) :
    refineBits s (b :: bs) = refineBits (refineBit s b) bs := rfl

lemma refineBits_wf : ∀ (bs : List Bool) {s : GeoState}, WF s → WF (refineBits s bs)
  | [], _, h => h
  | b :: bs, s, h => refineBits_wf bs (refineBit_wf b h)

lemma refineBits_nested : ∀ (bs : List Bool) {s : GeoState}, WF s →
    Nested (refineBits s bs) s
  | [], s, _ => ⟨le_refl _, le_refl _, le_refl _, le_refl _⟩
  | b :: bs, s, h =>
    nested_trans (refineBits_nested bs (refineBit_wf b h)) (refineBit_nested b h)

/-- One encoding step keeps the encoded point inside the refined
rectangle: the chosen half-interval always contains the coordinate. -/
lemma rectContains_refine_encBit {s : GeoState} {lat lon : ℚ}
    (h : rectContains s lat lon) :
    rectContains (refineBit s (encBit lat lon s)) lat lon := by
  obtain ⟨il, p1, p2, q1, q2⟩ := s
  obtain ⟨c1, c2, c3, c4⟩ := h
  cases il
  · by_cases hc : (p1 + p2) / 2 < lat <;>
      simp [refineBit, encBit, rectContains, qadd_eq, qhalf_eq, hc] <;>
      (repeat' apply And.intro) <;> linarith
  · by_cases hc : (q1 + q2) / 2 < lon <;>
      simp [refineBit, encBit, rectContains, qadd_eq, qhalf_eq, hc] <;>
      (repeat' apply And.intro) <;> linarith

lemma rectContains_encBits {lat lon : ℚ} :
    ∀ (n : Nat) {s : GeoState}, rectContains s lat lon →
      rectContains (refineBits s (encBits lat lon s n)) lat lon
  | 0, _, h => h
  | n + 1, s, h =>
    rectContains_encBits n (rectContains_refine_encBit h)

lemma encBits_length (lat lon : ℚ) : ∀ (n : Nat) (s : GeoState),
    (encBits lat lon s n).length = n
  | 0, _ => rfl
  | n + 1, s => by simp [encBits, encBits_length lat lon n]

/-! ## Base-32 symbol round-trips -/

lemma charBits_of_bits (b0 b1 b2 b3 b4 : Bool) :
    charBits (BASE32.getD
      (16 * bit1 b0 + 8 * bit1 b1 + 4 * bit1 b2 + 2 * bit1 b3 + bit1 b4) ' ')
      = [b0, b1, b2, b3, b4] := by
  revert b0 b1 b2 b3 b4; decide

lemma base32_char_roundtrip : ∀ c ∈ BASE32,
    BASE32.getD
      (16 * bit1 (jsBit (base32Index c) 4) + 8 * bit1 (jsBit (base32Index c) 3)
        + 4 * bit1 (jsBit (base32Index c) 2) + 2 * bit1 (jsBit (base32Index c) 1)
        + bit1 (jsBit (base32Index c) 0)) ' ' = c := by
  decide

lemma flatMap_charBits_length (h : List Char) :
    (h.flatMap charBits).length = 5 * h.length := by
  induction h with
  | nil => rfl
  | cons c t ih => simp [List.flatMap_cons, charBits, ih]; ring

lemma flatMap_bitsToChars : ∀ (n : Nat) (bs : List Bool), bs.length = 5 * n →
    (bitsToChars bs).flatMap charBits = bs := by
  intro n
  induction n with
  | zero =>
    intro bs h
    have : bs = [] := List.eq_nil_of_length_eq_zero (by omega)
    subst this; rfl
  | succ k ih =>
    intro bs h
    match bs with
    | b0 :: b1 :: b2 :: b3 :: b4 :: rest =>
      have hr : rest.length = 5 * k := by simp at h; omega
      simp only [bitsToChars, List.flatMap_cons, charBits_of_bits, ih rest hr]
      rfl

lemma bitsToChars_length : ∀ (n : Nat) (bs : List Bool), bs.length = 5 * n →
    (bitsToChars bs).length = n := by
  intro n
  induction n with
  | zero =>
    intro bs h
    have : bs = [] := List.eq_nil_of_length_eq_zero (by omega)
    subst this; rfl
  | succ k ih =>
    intro bs h
    match bs with
    | b0 :: b1 :: b2 :: b3 :: b4 :: rest =>
      have hr : rest.length = 5 * k := by simp at h; omega
      simp [bitsToChars, ih rest hr]

lemma bitsToChars_flatMap : ∀ (h : List Char), (∀ c ∈ h, c ∈ BASE32) →
    bitsToChars (h.flatMap charBits) = h := by
  intro h
  induction h with
  | nil => intro _; rfl
  | cons c t ih =>
    intro hv
    have hc : c ∈ BASE32 := hv c (List.mem_cons_self c t)
    have ht : ∀ x ∈ t, x ∈ BASE32 := fun x hx => hv x (List.mem_cons_of_mem c hx)
    simp only [List.flatMap_cons, charBits, List.cons_append, List.nil_append,
      bitsToChars]
    rw [base32_char_roundtrip c hc]
    congr 1
    exact ih ht

/-- Decoding the encoder's output replays exactly the encoder's interval
refinements. -/
lemma decodeState_encodeGeohash (lat lon : ℚ) (p : Nat) :
    decodeState (encodeGeohash lat lon p)
      = refineBits initState (encBits lat lon initState (5 * p)) := by
  unfold decodeState encodeGeohash
  rw [flatMap_bitsToChars p _ (encBits_length lat lon (5 * p) initState)]

lemma encodeGeohash_length (lat lon : ℚ) (p : Nat) :
    (encodeGeohash lat lon p).length = p :=
  bitsToChars_length p _ (encBits_length lat lon (5 * p) initState)

/-! ## Re-encoding the decoded midpoint reproduces the key -/

/-- Encoding the midpoint of the rectangle reached by a bit sequence
reproduces that bit sequence: at every step the midpoint of the final
(nondegenerate, nested) rectangle lies strictly inside the half-interval
the bit selected, so the encoder's comparison recovers the bit. -/
lemma encBits_of_center : ∀ (bs : List Bool) (s : GeoState), WF s →
    encBits (ctrLat (refineBits s bs)) (ctrLon (refineBits s bs)) s bs.length = bs := by
  intro bs
  induction bs with
  | nil => intro s _; rfl
  | cons b rest ih =>
    intro s hs
    have hs' : WF (refineBit s b) := refineBit_wf b hs
    have hw : WF (refineBits (refineBit s b) rest) := refineBits_wf rest hs'
    have hn : Nested (refineBits (refineBit s b) rest) (refineBit s b) :=
      refineBits_nested rest hs'
    have hbit :
        encBit (ctrLat (refineBits s (b :: rest))) (ctrLon (refineBits s (b :: rest))) s
          = b := by
      rw [refineBits_cons]
      obtain ⟨il, p1, p2, q1, q2⟩ := s
      obtain ⟨w1, w2⟩ := hw
      obtain ⟨n1, n2, n3, n4⟩ := hn
      cases il <;> cases b <;>
        simp only [refineBit, encBit, ctrLat, ctrLon, qadd_eq, qhalf_eq,
          Bool.if_true_left] at * <;>
        simp_all <;> linarith
    rw [List.length_cons]
    simp only [encBits]
    rw [hbit, refineBits_cons]
    exact congrArg (b :: ·) (ih (refineBit s b) hs')

/-- Re-encoding `approximateCenter` of a well-formed key at the key's
own length gives the key back. -/
lemma encode_approximateCenter (h : List Char) (hv : ∀ c ∈ h, c ∈ BASE32) :
    encodeGeohash (approximateCenter h).1 (approximateCenter h).2 h.length = h := by
  unfold encodeGeohash approximateCenter decodeState
  rw [show 5 * h.length = (h.flatMap charBits).length from
    (flatMap_charBits_length h).symm]
  rw [encBits_of_center (h.flatMap charBits) initState initState_wf]
  exact bitsToChars_flatMap h hv

/-! ## Neighborhood-expansion lemmas -/

lemma addNeighbor_mem (n : Nat) (c : ℚ × ℚ) (acc : List (List Char))
    (d : ℚ × ℚ) (x : List Char) (h : x ∈ acc) : x ∈ addNeighbor n c acc d := by
  simp only [addNeighbor]
  split
  · exact h
  · split
    · exact h
    · exact List.mem_append_left _ h

lemma addNeighbor_length (n : Nat) (c : ℚ × ℚ) (acc : List (List Char))
    (d : ℚ × ℚ) : (addNeighbor n c acc d).length ≤ acc.length + 1 := by
  simp only [addNeighbor]
  split
  · omega
  · split
    · omega
    · simp

lemma foldl_addNeighbor_mem (n : Nat) (c : ℚ × ℚ) :
    ∀ (l : List (ℚ × ℚ)) (acc : List (List Char)) (x : List Char), x ∈ acc →
      x ∈ l.foldl (addNeighbor n c) acc
  | [], _, _, h => h
  | d :: l, acc, x, h =>
    foldl_addNeighbor_mem n c l (addNeighbor n c acc d) x
      (addNeighbor_mem n c acc d x h)

lemma foldl_addNeighbor_length (n : Nat) (c : ℚ × ℚ) :
    ∀ (l : List (ℚ × ℚ)) (acc : List (List Char)),
      (l.foldl (addNeighbor n c) acc).length ≤ acc.length + l.length
  | [], _ => le_refl _
  | d :: l, acc => by
    have h1 := foldl_addNeighbor_length n c l (addNeighbor n c acc d)
    have h2 := addNeighbor_length n c acc d
    simp only [List.foldl_cons, List.length_cons]
    omega

/-! ## Claim theorems: geohash codec and expander -/

/-- Core round-trip containment, for any precision. -/
lemma encode_decode_contains (lat lon : ℚ) (p : Nat)
    (hlat1 : -90 ≤ lat) (hlat2 : lat ≤ 90)
    (hlon1 : -180 ≤ lon) (hlon2 : lon ≤ 180) :
    rectContains (decodeState (encodeGeohash lat lon p)) lat lon := by
  rw [decodeState_encodeGeohash]
  exact rectContains_encBits (5 * p)
    ⟨by simpa [initState] using hlat1, by simpa [initState] using hlat2,
     by simpa [initState] using hlon1, by simpa [initState] using hlon2⟩

/-- C2: for every latitude in `[-90, 90]`, longitude in `[-180, 180]`
and precision `p ≥ 1`, the bounding rectangle obtained by decoding
`encodeGeohash lat lon p` contains the encoded point. -/
theorem claim2_encode_decode_contains (lat lon : ℚ) (p : Nat)
    (hlat1 : -90 ≤ lat) (hlat2 : lat ≤ 90)
    (hlon1 : -180 ≤ lon) (hlon2 : lon ≤ 180) (hp : 1 ≤ p) :
    rectContains (decodeState (encodeGeohash lat lon p)) lat lon :=
  encode_decode_contains lat lon p hlat1 hlat2 hlon1 hlon2

/-- Witness for C2 at `(37, -122)`, precision 1. -/
theorem claim2_encode_decode_contains_witness :
    ((-90 : ℚ) ≤ 37 ∧ (37 : ℚ) ≤ 90 ∧ (-180 : ℚ) ≤ -122 ∧ (-122 : ℚ) ≤ 180
      ∧ 1 ≤ 1) ∧
    rectContains (decodeState (encodeGeohash 37 (-122) 1)) 37 (-122) :=
  ⟨by norm_num,
   claim2_encode_decode_contains 37 (-122) 1 (by norm_num) (by norm_num)
     (by norm_num) (by norm_num) (by norm_num)⟩

/-- C3: neighborhood expansion always returns a set containing the
center key itself, and for keys over the base-32 alphabet the
deduplicated output has between 1 and 9 elements. -/
theorem claim3_neighbors_center_size (key : List Char) :
    key ∈ getGeohashNeighbors key ∧
    1 ≤ (getGeohashNeighbors key).length ∧
    ((∀ c ∈ key, c ∈ BASE32) → (getGeohashNeighbors key).length ≤ 9) := by
  by_cases hshort : (key.isEmpty || decide (key.length < 5)) = true
  · unfold getGeohashNeighbors
    rw [if_pos hshort]
    exact ⟨List.mem_singleton_self key, by simp, fun _ => by simp⟩
  · have hmem : key ∈ getGeohashNeighbors key := by
      unfold getGeohashNeighbors
      rw [if_neg hshort]
      exact foldl_addNeighbor_mem _ _ _ _ _ (List.mem_singleton_self key)
    refine ⟨hmem, List.length_pos.mpr (List.ne_nil_of_mem hmem), ?_⟩
    intro hv
    have hne : ¬key.isEmpty := by
      intro hc; exact hshort (by simp [hc])
    have hfirst :
        addNeighbor key.length (approximateCenter key) [key] ((0 : ℚ), (0 : ℚ))
          = [key] := by
      unfold addNeighbor
      simp only [qadd_zero]
      rw [encode_approximateCenter key hv]
      rw [if_neg (by simpa using hne)]
      rw [if_pos (List.mem_singleton_self key)]
    unfold getGeohashNeighbors
    rw [if_neg hshort]
    show (neighborOffsets.foldl
      (addNeighbor key.length (approximateCenter key)) [key]).length ≤ 9
    have hoff : neighborOffsets
        = ((0 : ℚ), (0 : ℚ)) :: neighborOffsets.tail := rfl
    rw [hoff, List.foldl_cons, hfirst]
    exact le_trans (foldl_addNeighbor_length _ _ _ _)
      (by norm_num [neighborOffsets])

/-- Witness for C3 at the key `9q8yyk8`. -/
theorem claim3_neighbors_center_size_witness :
    (∀ c ∈ "9q8yyk8".toList, c ∈ BASE32) ∧
    "9q8yyk8".toList ∈ getGeohashNeighbors "9q8yyk8".toList ∧
    (getGeohashNeighbors "9q8yyk8".toList).length ≤ 9 :=
  ⟨by decide,
   (claim3_neighbors_center_size "9q8yyk8".toList).1,
   (claim3_neighbors_center_size "9q8yyk8".toList).2.2 (by decide)⟩

/-- A concrete precision-7 center key (the geohash of downtown San
Francisco). -/
def cexCenter : List Char := "9q8yyk8".toList

set_option maxRecDepth 100000 in
/-- C4 counterexample: the expander's north offset `(step, 0)` applied
to the precision-7 key `9q8yyk8` re-encodes to a key that is produced by
`getGeohashNeighbors`, yet whose cell lies strictly above the center
cell with a gap (`latMax(center) < latMin(offset cell)`), so the two
cells share no edge or corner: the fixed 0.005° step overshoots the
0.00137° cell height at precision 7. -/
theorem claim4_counterexample :
    (neighborStep, (0 : ℚ)) ∈ neighborOffsets ∧
    encodeGeohash (qadd (approximateCenter cexCenter).1 neighborStep)
        (qadd (approximateCenter cexCenter).2 0) cexCenter.length
      ∈ getGeohashNeighbors cexCenter ∧
    (decodeState cexCenter).latMax
      < (decodeState (encodeGeohash (qadd (approximateCenter cexCenter).1 neighborStep)
          (qadd (approximateCenter cexCenter).2 0) cexCenter.length)).latMin := by
  refine ⟨by decide, by decide, by decide⟩

/-- C4 amended: each of the 8 symmetric offset points is re-encoded at
the center key's own precision, and (whenever the offset point is still
inside the valid coordinate ranges) the resulting key's cell contains
the offset point — but that cell need not be adjacent to the center's
cell, because the step is the fixed constant 0.005° rather than being
derived from the cell size at the key's precision. -/
theorem claim4_offsets_same_precision (h : List Char) (hlen : 5 ≤ h.length)
    (d : ℚ × ℚ) (hd : d ∈ neighborOffsets)
    (h1 : -90 ≤ qadd (approximateCenter h).1 d.1)
    (h2 : qadd (approximateCenter h).1 d.1 ≤ 90)
    (h3 : -180 ≤ qadd (approximateCenter h).2 d.2)
    (h4 : qadd (approximateCenter h).2 d.2 ≤ 180) :
    (encodeGeohash (qadd (approximateCenter h).1 d.1)
      (qadd (approximateCenter h).2 d.2) h.length).length = h.length ∧
    rectContains
      (decodeState (encodeGeohash (qadd (approximateCenter h).1 d.1)
        (qadd (approximateCenter h).2 d.2) h.length))
      (qadd (approximateCenter h).1 d.1) (qadd (approximateCenter h).2 d.2) :=
  ⟨encodeGeohash_length _ _ _, encode_decode_contains _ _ _ h1 h2 h3 h4⟩

set_option maxRecDepth 100000 in
/-- Witness for the amended C4 at the key `9q8yy` and the east offset. -/
theorem claim4_offsets_same_precision_witness :
    (5 ≤ "9q8yy".toList.length ∧ ((0 : ℚ), neighborStep) ∈ neighborOffsets) ∧
    ((encodeGeohash (qadd (approximateCenter "9q8yy".toList).1 ((0 : ℚ), neighborStep).1)
        (qadd (approximateCenter "9q8yy".toList).2 ((0 : ℚ), neighborStep).2)
        "9q8yy".toList.length).length = "9q8yy".toList.length ∧
      rectContains
        (decodeState (encodeGeohash
          (qadd (approximateCenter "9q8yy".toList).1 ((0 : ℚ), neighborStep).1)
          (qadd (approximateCenter "9q8yy".toList).2 ((0 : ℚ), neighborStep).2)
          "9q8yy".toList.length))
        (qadd (approximateCenter "9q8yy".toList).1 ((0 : ℚ), neighborStep).1)
        (qadd (approximateCenter "9q8yy".toList).2 ((0 : ℚ), neighborStep).2)) :=
  ⟨⟨by decide, by decide⟩,
   claim4_offsets_same_precision "9q8yy".toList (by decide)
     ((0 : ℚ), neighborStep) (by decide)
     (by decide) (by decide) (by decide) (by decide)⟩

/-! ## Claim theorems: query construction -/

/-- C1 counterexample: for a concrete request reaching the query step
(neighborhood `["9q8yyk8"]`, service `"tow"`), the structured query sent
to the store contains no equality predicate, no array-containment
predicate, and no IN predicate: its `where` clause is absent. -/
theorem claim1_counterexample :
    ¬((∃ f ∈ (structuredQueryBody ["9q8yyk8".toList] "tow").whereFilters,
          f.op = FieldOp.equal) ∧
      (∃ f ∈ (structuredQueryBody ["9q8yyk8".toList] "tow").whereFilters,
          f.op = FieldOp.arrayContains) ∧
      (∃ f ∈ (structuredQueryBody ["9q8yyk8".toList] "tow").whereFilters,
          f.op = FieldOp.inArray)) := by
  decide

/-- C1 amended: for every request that reaches the query step, the query
sent to the document store carries no filter predicates at all — neither
an availability-state equality predicate, nor a service-type
array-containment predicate, nor a spatial-key IN predicate; it is a
bare query on the `providers` collection with only a result limit of 5. -/
theorem claim1_query_has_no_predicates (geohashes : List (List Char))
    (service : String) :
    (structuredQueryBody geohashes service).whereFilters = [] ∧
    (structuredQueryBody geohashes service).collectionId = "providers" ∧
    (structuredQueryBody geohashes service).limit = 5 :=
  ⟨rfl, rfl, rfl⟩

/-- An 11-element spatial-key list (exceeds the store's IN limit of 10). -/
def elevenKeys : List (List Char) :=
  [['0'], ['1'], ['2'], ['3'], ['4'], ['5'], ['6'], ['7'], ['8'], ['9'], ['b']]

/-- C5 counterexample: for a key list of 11 elements — beyond the
store's limit of 10 — the builder emits no IN predicate at all, so no
truncated IN predicate over the keys is built. -/
theorem claim5_counterexample :
    10 < elevenKeys.length ∧
    ¬∃ f ∈ (structuredQueryBody elevenKeys "tow").whereFilters,
        f.op = FieldOp.inArray := by
  decide

/-- C5 amended: the query builder never emits an IN predicate for any
key list (the query carries no filters whatsoever), so the store's
10-member cardinality limit is vacuously respected; the key list is
ignored rather than truncated. -/
theorem claim5_no_in_predicate (keys : List (List Char)) (service : String) :
    (structuredQueryBody keys service).whereFilters.filter
        (fun f => decide (f.op = FieldOp.inArray)) = [] ∧
    (structuredQueryBody keys service).whereFilters.all
        (fun f => decide (f.values.length ≤ 10)) = true :=
  ⟨rfl, rfl⟩

/-! ## Request-handler lemmas -/

/-- The recipient set a request ends up with: the `uniqueIds` of the
handler, as a function of the payload and the store's reply. -/
def requestRecipients (p : Payload) (reply : StoreReply) : List String :=
  uniqueRecipients (queryProviders (getGeohashNeighbors (centerHashOf p))
    (p.service.getD "") reply)

lemma foldl_dedup_length {α : Type} [DecidableEq α] :
    ∀ (l : List α) (acc : List α),
      (List.foldl (fun acc x => if x ∈ acc then acc else acc ++ [x]) acc l).length
        ≤ acc.length + l.length
  | [], _ => le_refl _
  | x :: l, acc => by
    have h1 := foldl_dedup_length l (if x ∈ acc then acc else acc ++ [x])
    have h2 : (if x ∈ acc then acc else acc ++ [x]).length ≤ acc.length + 1 := by
      split <;> simp
    simp only [List.foldl_cons, List.length_cons]
    omega

lemma jsSetDedup_length_le {α : Type} [DecidableEq α] (l : List α) :
    (jsSetDedup l).length ≤ l.length := by
  have h := foldl_dedup_length l ([] : List α)
  simpa [jsSetDedup] using h

lemma uniqueRecipients_length_le (providers : List ProviderFields) :
    (uniqueRecipients providers).length ≤ providers.length := by
  unfold uniqueRecipients
  calc (jsSetDedup ((providers.map extractRecipient).filterMap keepId)).length
      ≤ ((providers.map extractRecipient).filterMap keepId).length :=
        jsSetDedup_length_le _
    _ ≤ (providers.map extractRecipient).length := List.length_filterMap_le _ _
    _ = providers.length := List.length_map _ _

/-- When validation passes, the handler's outcome is determined by the
recipient set: empty recipients give `no_providers`, otherwise a
`success` response carrying the recipient count — independently of the
push gateway's outcome. -/
lemma handleRequest_valid (p : Payload) (reply : StoreReply) (g : Bool)
    (hs : jsTruthyStr p.service = true) (hlat : jsTruthyNum (latOf p) = true)
    (hlon : jsTruthyNum (lonOf p) = true) :
    handleRequest p reply g =
      if (requestRecipients p reply).length = 0 then
        { status := 200, body := ResponseBody.noProviders }
      else
        { status := 200,
          body := ResponseBody.success (requestRecipients p reply).length } := by
  unfold handleRequest requestRecipients
  rw [hs, hlat, hlon]
  simp

/-- When validation fails, the handler answers 400 Missing required
fields. -/
lemma handleRequest_invalid (p : Payload) (reply : StoreReply) (g : Bool)
    (h : ¬(jsTruthyStr p.service = true ∧ jsTruthyNum (latOf p) = true ∧
      jsTruthyNum (lonOf p) = true)) :
    handleRequest p reply g
      = { status := 400, body := ResponseBody.missingFields } := by
  by_cases h1 : jsTruthyStr p.service = true <;>
    by_cases h2 : jsTruthyNum (latOf p) = true <;>
      by_cases h3 : jsTruthyNum (lonOf p) = true <;>
        simp_all [handleRequest]

/-- A concrete valid request: service `tow`, coordinates `(37, -122)`,
client-supplied geohash `9q8yyk8`. -/
def validPayload : Payload :=
  { requestId := some "r1", service := some "tow",
    userLocation := some { latitude := some 37, longitude := some (-122) },
    locationDescription := none, userName := some "Ana",
    geohash := some "9q8yyk8".toList }

/-- A request carrying a precomputed geohash but no coordinate pair. -/
def geohashOnlyPayload : Payload :=
  { requestId := none, service := some "tow", userLocation := none,
    locationDescription := none, userName := none,
    geohash := some "9q8yyk8".toList }

/-- A request whose latitude is the valid equator coordinate `0`. -/
def zeroLatPayload : Payload :=
  { requestId := none, service := some "tow",
    userLocation := some { latitude := some 0, longitude := some 10 },
    locationDescription := none, userName := none, geohash := none }

/-- A store reply with one document holding one recipient id. -/
def okReply : StoreReply :=
  Except.ok [some { oneSignalPlayerId := some "a", oneSignalSubscriptionId := none }]

/-! ## Claim theorems: error handling and the orchestrator -/

/-- C6: a store error reply is swallowed — `queryProviders` yields the
empty list and the request completes with HTTP 200 `no_providers`,
never a failed response. -/
theorem claim6_store_error_degrades (p : Payload) (e : String) (g : Bool)
    (hs : jsTruthyStr p.service = true) (hlat : jsTruthyNum (latOf p) = true)
    (hlon : jsTruthyNum (lonOf p) = true) :
    queryProviders (getGeohashNeighbors (centerHashOf p)) (p.service.getD "")
        (Except.error e) = [] ∧
    handleRequest p (Except.error e) g
      = { status := 200, body := ResponseBody.noProviders } := by
  refine ⟨rfl, ?_⟩
  rw [handleRequest_valid p _ g hs hlat hlon]
  simp [requestRecipients, queryProviders, uniqueRecipients, jsSetDedup]

/-- Witness for C6: the valid request against an erroring store. -/
theorem claim6_store_error_degrades_witness :
    queryProviders (getGeohashNeighbors (centerHashOf validPayload))
        (validPayload.service.getD "") (Except.error "boom") = [] ∧
    handleRequest validPayload (Except.error "boom") true
      = { status := 200, body := ResponseBody.noProviders } :=
  claim6_store_error_degrades validPayload "boom" true
    (by decide) (by decide) (by decide)

/-- C7: when the recipient set is nonempty, the response is the HTTP 200
`success` shape carrying the attempted recipient count, identical
whether the push gateway succeeds or fails, and distinct from
`no_providers`. -/
theorem claim7_dispatch_failure_keeps_success (p : Payload) (reply : StoreReply)
    (hs : jsTruthyStr p.service = true) (hlat : jsTruthyNum (latOf p) = true)
    (hlon : jsTruthyNum (lonOf p) = true)
    (hne : (requestRecipients p reply).length ≠ 0) :
    handleRequest p reply false
      = { status := 200,
          body := ResponseBody.success (requestRecipients p reply).length } ∧
    handleRequest p reply false = handleRequest p reply true ∧
    (handleRequest p reply false).body ≠ ResponseBody.noProviders := by
  have h0 := handleRequest_valid p reply false hs hlat hlon
  have h1 := handleRequest_valid p reply true hs hlat hlon
  rw [if_neg hne] at h0 h1
  exact ⟨h0, h0.trans h1.symm, by rw [h0]; simp⟩

/-- Witness for C7: one extracted recipient, failing gateway. -/
theorem claim7_dispatch_failure_keeps_success_witness :
    (requestRecipients validPayload okReply).length ≠ 0 ∧
    handleRequest validPayload okReply false
      = { status := 200,
          body := ResponseBody.success (requestRecipients validPayload okReply).length } ∧
    handleRequest validPayload okReply false = handleRequest validPayload okReply true ∧
    (handleRequest validPayload okReply false).body ≠ ResponseBody.noProviders :=
  ⟨by decide,
   claim7_dispatch_failure_keeps_success validPayload okReply
     (by decide) (by decide) (by decide) (by decide)⟩

/-- C8 counterexample: a request supplying a service type and a
precomputed geohash but no raw coordinate pair is rejected with
HTTP 400, contradicting the claim that either location form is
accepted: validation demands truthy coordinates unconditionally. -/
theorem claim8_counterexample :
    handleRequest geohashOnlyPayload (Except.ok []) true
      = { status := 400, body := ResponseBody.missingFields } := by
  decide

/-- C8 amended: validation requires a truthy service type and truthy
latitude and longitude — a supplied geohash does not substitute for the
coordinate pair; exactly the requests failing that check get the
client-error 400 response, and when validation passes a truthy supplied
geohash is used as-is (never recomputed). -/
theorem claim8_validation_requires_coordinates (p : Payload) (reply : StoreReply)
    (g : Bool) :
    ((handleRequest p reply g).status = 400 ↔
      ¬(jsTruthyStr p.service = true ∧ jsTruthyNum (latOf p) = true ∧
        jsTruthyNum (lonOf p) = true)) ∧
    (jsTruthyChars p.geohash = true → centerHashOf p = p.geohash.getD []) := by
  constructor
  · by_cases hv : (jsTruthyStr p.service = true ∧ jsTruthyNum (latOf p) = true ∧
        jsTruthyNum (lonOf p) = true)
    · obtain ⟨hs, hlat, hlon⟩ := hv
      rw [handleRequest_valid p reply g hs hlat hlon]
      constructor
      · intro hst
        exfalso
        revert hst
        split <;> simp
      · intro hc
        exact absurd ⟨hs, hlat, hlon⟩ hc
    · rw [handleRequest_invalid p reply g hv]
      exact ⟨fun _ => hv, fun _ => rfl⟩
  · intro hg
    simp [centerHashOf, hg]

/-- Witness for the amended C8: the geohash of `validPayload` is taken
as-is. -/
theorem claim8_validation_requires_coordinates_witness :
    jsTruthyChars validPayload.geohash = true ∧
    centerHashOf validPayload = validPayload.geohash.getD [] :=
  ⟨by decide,
   (claim8_validation_requires_coordinates validPayload (Except.ok []) true).2
     (by decide)⟩

/-- C9: a request whose latitude or longitude equals `0` — a valid
coordinate — is rejected with HTTP 400 Missing required fields, because
presence is tested by JS truthiness and `0` is falsy. -/
theorem claim9_zero_coordinate_rejected (p : Payload) (reply : StoreReply)
    (g : Bool) (h : latOf p = some 0 ∨ lonOf p = some 0) :
    handleRequest p reply g
      = { status := 400, body := ResponseBody.missingFields } := by
  apply handleRequest_invalid
  intro hv
  obtain ⟨hs, hlat, hlon⟩ := hv
  rcases h with h | h
  · rw [h] at hlat
    simp [jsTruthyNum] at hlat
  · rw [h] at hlon
    simp [jsTruthyNum] at hlon

/-- Witness for C9: latitude `0` on the equator is rejected. -/
theorem claim9_zero_coordinate_rejected_witness :
    (latOf zeroLatPayload = some 0 ∨ lonOf zeroLatPayload = some 0) ∧
    handleRequest zeroLatPayload (Except.ok []) true
      = { status := 400, body := ResponseBody.missingFields } :=
  ⟨Or.inl rfl,
   claim9_zero_coordinate_rejected zeroLatPayload (Except.ok []) true (Or.inl rfl)⟩

/-- C10: every query body carries the fixed limit 5, and when the store
honors the limit (returns at most `limit` documents), the notified count
of a success response never exceeds 5. -/
theorem claim10_limit_bounds_notified (geohashes : List (List Char))
    (service : String) (p : Payload) (rows : List (Option ProviderFields))
    (g : Bool) (n : Nat) :
    (structuredQueryBody geohashes service).limit = 5 ∧
    ((rows.filterMap id).length ≤ (structuredQueryBody geohashes service).limit →
      (handleRequest p (Except.ok rows) g).body = ResponseBody.success n →
      n ≤ 5) := by
  refine ⟨rfl, ?_⟩
  intro hrows hbody
  simp [structuredQueryBody] at hrows
  by_cases hv : (jsTruthyStr p.service = true ∧ jsTruthyNum (latOf p) = true ∧
      jsTruthyNum (lonOf p) = true)
  · obtain ⟨hs, hlat, hlon⟩ := hv
    rw [handleRequest_valid p _ g hs hlat hlon] at hbody
    by_cases hz : (requestRecipients p (Except.ok rows)).length = 0
    · rw [if_pos hz] at hbody
      simp at hbody
    · rw [if_neg hz] at hbody
      simp only [ResponseBody.success.injEq] at hbody
      have hle : (requestRecipients p (Except.ok rows)).length
          ≤ (rows.filterMap id).length := by
        unfold requestRecipients
        simpa [queryProviders] using uniqueRecipients_length_le (rows.filterMap id)
      omega
  · rw [handleRequest_invalid p _ g hv] at hbody
    simp at hbody

/-- Witness for C10: one returned document, notified count 1 ≤ 5. -/
theorem claim10_limit_bounds_notified_witness :
    (([some { oneSignalPlayerId := some "a", oneSignalSubscriptionId := none }] :
        List (Option ProviderFields)).filterMap id).length
      ≤ (structuredQueryBody [] "tow").limit ∧
    (handleRequest validPayload okReply true).body = ResponseBody.success 1 ∧
    (1 : Nat) ≤ 5 :=
  ⟨by decide, by decide,
   (claim10_limit_bounds_notified [] "tow" validPayload
       [some { oneSignalPlayerId := some "a", oneSignalSubscriptionId := none }]
       true 1).2 (by decide) (by decide)⟩

end Padue
